import Mathlib

/-!
Shallow embedding of the qsr-coupon-ingest delivery pipeline
(`src/qsr_mparticle/{api.py, processor.py, utils.py}`).

Conventions of the embedding:
* Python dicts holding CSV rows become association lists `List (String × String)`
  in insertion order (CSV column order).
* Cryptographic hashes (`hashlib.sha256` in `generate_unique_id`,
  `hashlib.md5` in `DeduplicationCache._hash_event`) are modelled as the
  identity on their (canonicalised) input: the hash of a value is the value
  itself.  This is the standard collision-free idealisation; every claim in
  play depends only on equality of hashes of equal inputs and inequality of
  hashes of unequal inputs.
* Wall-clock reads (`time.time()`, `datetime.now()`) become explicit rational
  parameters; where a claim does not depend on the clock the parameter is `0`.
* The remote HTTP endpoint is an explicit oracle `send : Payload → σ → Bool × σ`
  threading an endpoint state `σ`: `true` means a 2xx response, `false` any
  non-2xx response.  Network-level exceptions are not part of the scenarios
  the pipeline claims quantify over (their endpoints answer with statuses);
  the `CircuitBreaker.call` model below shows that a non-raising operation
  passes through the breaker unchanged, which justifies modelling
  `_send_single_event` as the oracle itself inside the pipeline model.
* Shared-state concurrency (`ThreadPoolExecutor`, locks) is modelled by
  sequential state threading in submission order; the aggregation in
  `process_chunk_in_batches` only sums counts and concatenates failed-row
  lists, so completion order does not affect the returned counts.
-/

namespace QsrPipeline

/-- One CSV row: an association list of column name to string value,
in column order (`csv.DictReader` / `pandas` record). -/
abbrev Row := List (String × String)

/-- `row[k]` lookup: first binding of key `k`. -/
def rowLookup (r : Row) (k : String) : Option String :=
  (r.find? (fun kv => kv.1 = k)).map (fun kv => kv.2)

/-- Python truthiness test `"k" in row and row["k"]` for string values:
the key is present and its value is a nonempty string. -/
def rowHasTruthy (r : Row) (k : String) : Bool :=
  match rowLookup r k with
  | some v => v ≠ ""
  | none => false

/-- Code-point lexicographic `≤` on character lists: Python's string
comparison used by `sorted`/`sort_keys`. -/
def charListLe : List Char → List Char → Bool
  | [], _ => true
  | _ :: _, [] => false
  | a :: as, b :: bs =>
    if a.toNat < b.toNat then true
    else if b.toNat < a.toNat then false
    else charListLe as bs

/-- Python string `≤` (code-point lexicographic). -/
def strLe (a b : String) : Bool := charListLe a.data b.data

/-- Insert one binding into a key-sorted association list (insertion sort step). -/
def insertByKey (p : String × String) : List (String × String) → List (String × String)
  | [] => [p]
  | q :: t => if strLe p.1 q.1 then p :: q :: t else q :: insertByKey p t

/-- `json.dumps(row, sort_keys=True)` inside `generate_unique_id`
(utils.py lines 39-58): the row canonicalised by sorting its keys.  The
sha256 digest of that string is modelled as the canonicalised row itself
(injective-hash idealisation). -/
def generateUniqueId (r : Row) : Row :=
  r.foldr insertByKey []

/-- A custom-attribute value: either a plain CSV string, or the
`event_id` value produced by `generate_unique_id`. -/
inductive AttrVal where
  | str (s : String)
  | uid (r : Row)
deriving DecidableEq, Repr

/-- One entry of the `events` list of an mParticle payload
(`create_mparticle_event`, utils.py lines 61-112): the event name,
`timestamp_unixtime_ms`, and the `custom_attributes` dict in insertion
order. -/
structure EventData where
  eventName : String
  timestampMs : ℕ
  customAttributes : List (String × AttrVal)
deriving DecidableEq, Repr

/-- An outbound mParticle payload (the dict built by
`create_mparticle_event` / combined by `_send_batch_events`). -/
structure Payload where
  schemaVersion : ℕ
  environment : String
  events : List EventData
  userIdentities : List (String × String)
  deviceInfoPlatform : String
deriving DecidableEq, Repr

/-- `create_mparticle_event(row, environment)` (utils.py lines 61-112).
`nowMs` stands for `int(datetime.now().timestamp() * 1000)`; no claim
depends on it and the dedup fingerprint deliberately excludes it. -/
def createMParticleEvent (row : Row) (environment : String) (nowMs : ℕ := 0) : Payload :=
  let eid := generateUniqueId row
  let identities :=
    (if rowHasTruthy row "email" then [("email", (rowLookup row "email").getD "")] else []) ++
    (if rowHasTruthy row "customer_id" then
      [("customer_id", (rowLookup row "customer_id").getD "")] else [])
  let customAttrs : List (String × AttrVal) :=
    ("event_id", AttrVal.uid eid) ::
      (row.filter (fun kv => kv.1 ∉ ["email", "customer_id"] ∧ kv.2 ≠ "")).map
        (fun kv => (kv.1, AttrVal.str kv.2))
  { schemaVersion := 2
    environment := environment
    events := [{ eventName := "qsr_coupon_signup", timestampMs := nowMs,
                 customAttributes := customAttrs }]
    userIdentities := identities
    deviceInfoPlatform := "web" }

/-- The dedup fingerprint content of `DeduplicationCache._hash_event`
(utils.py lines 151-158): the email identity plus the first event's
custom attributes (timestamps excluded by construction).  The md5 digest
of `str(sorted(hashable_data.items()))` is modelled as this pair itself. -/
abbrev Fingerprint := String × List (String × AttrVal)

/-- `_hash_event(event_data)` (utils.py lines 151-158). -/
def hashEvent (p : Payload) : Fingerprint :=
  (((p.userIdentities.find? (fun kv => kv.1 = "email")).map (fun kv => kv.2)).getD "",
   (p.events.headD { eventName := "", timestampMs := 0, customAttributes := [] }).customAttributes)

/-- `DeduplicationCache` (utils.py lines 115-165).  The Python `set` of
sent-event hashes is modelled as a list in insertion order (the source's
eviction slices `list(self.sent_events)[:removal_count]`, an incidental
iteration order; the spec itself flags this as order-unspecified). -/
structure DeduplicationCache where
  sentEvents : List Fingerprint
  maxSize : ℕ
deriving DecidableEq, Repr

/-- A fresh `DeduplicationCache()` (default `max_size = 50000`). -/
def mkDeduplicationCache (maxSize : ℕ := 50000) : DeduplicationCache :=
  { sentEvents := [], maxSize := maxSize }

/-- `DeduplicationCache.is_duplicate(event_data)` (utils.py lines 123-149):
returns whether the fingerprint was already cached, and the updated cache
(inserting the fingerprint when new, after evicting the oldest 20% when
the cache is full; `int(max_size * 0.2)` is the exact floor `maxSize*2/10`,
which agrees with the float computation for all sizes in play). -/
def DeduplicationCache.isDuplicate (c : DeduplicationCache) (p : Payload) :
    Bool × DeduplicationCache :=
  let h := hashEvent p
  if h ∈ c.sentEvents then
    (true, c)
  else
    let c1 :=
      if c.maxSize ≤ c.sentEvents.length then
        { c with sentEvents := c.sentEvents.drop (c.maxSize * 2 / 10) }
      else c
    (false, { c1 with sentEvents := c1.sentEvents ++ [h] })

/-- `DeduplicationCache.get_stats()` (utils.py lines 160-165). -/
def DeduplicationCache.getStats (c : DeduplicationCache) : ℕ × ℕ :=
  (c.sentEvents.length, c.maxSize)

/-- Python `getattr(dedup_cache, 'deduplicated_count', 0)` as evaluated at
processor.py line 411: the `DeduplicationCache` class (utils.py lines
115-165) never defines or assigns an attribute named `deduplicated_count`
— its only instance attributes are `sent_events`, `max_size` and `logger`
— so the attribute lookup always falls back to the supplied default.
Modelled as the constant `none`. -/
def dedupCacheDeduplicatedCountAttr (_c : DeduplicationCache) : Option ℕ := none

/-- `[xs[i:i+n] for i in range(0, len(xs), n)]`: split a list into
consecutive chunks of size `n` (the last chunk may be shorter);
`range(0, len, n)` has `⌈len/n⌉` elements.  `n = 0` never occurs in the
program (`batch_size` is 10 or a positive configuration value). -/
def chunksOf (n : ℕ) (l : List α) : List (List α) :=
  (List.range ((l.length + n - 1) / n)).map (fun i => (l.drop (i * n)).take n)

/-- `_send_batch_events`' payload combination (api.py lines 241-257):
schema/environment/device info and user identities from the first event,
and the `events` lists of all payloads concatenated (payloads with an
empty `events` list contribute nothing, per the truthiness check
`if "events" in event and event["events"]`). -/
def combinePayload (events : List Payload) : Payload :=
  let base := events.headD
    { schemaVersion := 2, environment := "development", events := [],
      userIdentities := [], deviceInfoPlatform := "web" }
  { schemaVersion := base.schemaVersion
    environment := base.environment
    events := events.flatMap (fun p => p.events)
    userIdentities := base.userIdentities
    deviceInfoPlatform := base.deviceInfoPlatform }

section Client

variable {σ : Type}

/-- `_send_single_event(event)` (api.py lines 226-232) against a
status-answering endpoint oracle: the request goes through
`circuit_breaker.call(_make_api_request, event)`; a non-2xx answer makes
`_make_api_request` return `False` without raising, so the breaker records
a success and hands the boolean back unchanged (see
`CircuitBreaker.call_ok` below).  Each pipeline call site constructs a
fresh client, hence a fresh CLOSED breaker. -/
def sendSingleEvent (send : Payload → σ → Bool × σ) (p : Payload) (s : σ) : Bool × σ :=
  send p s

/-- `_send_batch_events(events)` (api.py lines 234-263): combine the
payloads and send once. -/
def sendBatchEvents (send : Payload → σ → Bool × σ) (events : List Payload) (s : σ) :
    Bool × σ :=
  if events.isEmpty then (true, s)
  else send (combinePayload events) s

/-- `send_events_batch(events)` (api.py lines 167-191): slice into
sub-batches of `batch_size`; a length-1 sub-batch goes through
`_send_single_event` and counts 1, a longer one through
`_send_batch_events` and counts `len(batch)` as all-success or
all-failed.  Returns `(success, failed)` counts and the endpoint state. -/
def sendEventsBatch (send : Payload → σ → Bool × σ) (batchSize : ℕ)
    (events : List Payload) (s : σ) : (ℕ × ℕ) × σ :=
  (chunksOf batchSize events).foldl
    (fun acc batch =>
      let ((succ, fail), st) := acc
      match batch with
      | [e] =>
        let (ok, st') := sendSingleEvent send e st
        (if ok then (succ + 1, fail) else (succ, fail + 1), st')
      | _ =>
        let (ok, st') := sendBatchEvents send batch st
        (if ok then (succ + batch.length, fail) else (succ, fail + batch.length), st'))
    ((0, 0), s)

end Client

/-- The per-batch counts returned by `process_csv_batch_optimized`
(processor.py line 132). -/
structure BatchResults where
  success : ℕ
  failed : ℕ
  deduplicated : ℕ
deriving DecidableEq, Repr

/-- The row-scanning loop of `process_csv_batch_optimized` (processor.py
lines 137-149): for each row build its event, consult the dedup cache if
present (which also inserts new fingerprints), and collect the events to
send paired with their rows.  Returns (deduplicated count, events to
send, updated cache). -/
def collectEvents (environment : String) :
    List Row → Option DeduplicationCache →
    ℕ × List (Payload × Row) × Option DeduplicationCache
  | [], cache => (0, [], cache)
  | row :: rest, cache =>
    let event := createMParticleEvent row environment
    match cache with
    | some c =>
      let step := c.isDuplicate event
      let r := collectEvents environment rest (some step.2)
      if step.1 then (r.1 + 1, r.2.1, r.2.2)
      else (r.1, (event, row) :: r.2.1, r.2.2)
    | none =>
      let r := collectEvents environment rest none
      (r.1, (event, row) :: r.2.1, r.2.2)

/-- The unbatched sending loop of `process_csv_batch_optimized`
(processor.py lines 168-186): send each event individually, counting
successes and failures and collecting the failed rows in order. -/
def sendIndividually {σ : Type} (send : Payload → σ → Bool × σ) :
    List (Payload × Row) → σ → (ℕ × ℕ × List Row) × σ
  | [], s => ((0, 0, []), s)
  | (e, row) :: rest, s =>
    let r1 := sendSingleEvent send e s
    let r2 := sendIndividually send rest r1.2
    (if r1.1 then (r2.1.1 + 1, r2.1.2.1, r2.1.2.2)
     else (r2.1.1, r2.1.2.1 + 1, row :: r2.1.2.2), r2.2)

/-- `process_csv_batch_optimized(batch, ...)` (processor.py lines
108-188): scan rows through the dedup cache, then deliver the surviving
events either through `send_events_batch_to_mparticle` (batched mode,
client `batch_size=10`; all survivors counted success when the aggregate
success count is positive, otherwise all counted failed and returned) or
one by one (unbatched mode, precise accounting).  Returns
((counts, failed rows), updated cache, endpoint state). -/
def processCsvBatchOptimized {σ : Type} (send : Payload → σ → Bool × σ)
    (batch : List Row) (environment : String)
    (dedupCache : Option DeduplicationCache) (enableBatching : Bool) (s : σ) :
    (BatchResults × List Row) × Option DeduplicationCache × σ :=
  let ce := collectEvents environment batch dedupCache
  let dedup := ce.1
  let toSend := ce.2.1
  let cache' := ce.2.2
  if toSend.isEmpty then
    (({ success := 0, failed := 0, deduplicated := dedup }, []), cache', s)
  else if enableBatching then
    let sb := sendEventsBatch send 10 (toSend.map (fun er => er.1)) s
    if 0 < sb.1.1 then
      (({ success := toSend.length, failed := 0, deduplicated := dedup }, []), cache', sb.2)
    else
      (({ success := 0, failed := toSend.length, deduplicated := dedup },
        toSend.map (fun er => er.2)), cache', sb.2)
  else
    let si := sendIndividually send toSend s
    (({ success := si.1.1, failed := si.1.2.1, deduplicated := dedup }, si.1.2.2),
      cache', si.2)

/-- `process_chunk_in_batches(data, ...)` (processor.py lines 462-525):
split the chunk into batches of `batch_size`, run
`process_csv_batch_optimized` on each, and aggregate only the success
count, the failure count and the concatenated failed rows — the
per-batch `deduplicated` counts are read nowhere (lines 503-506).  The
thread-pool dispatch is modelled in submission order: aggregation only
sums counts and concatenates lists, so the returned values do not depend
on completion order.  The dedup cache is the single shared instance,
threaded through the batches. -/
def processChunkInBatches {σ : Type} (send : Payload → σ → Bool × σ)
    (data : List Row) (environment : String) (batchSize : ℕ)
    (dedupCache : Option DeduplicationCache) (enableBatching : Bool) (s : σ) :
    (ℕ × ℕ × List Row) × Option DeduplicationCache × σ :=
  (chunksOf batchSize data).foldl
    (fun acc batch =>
      let ((succ, fail, failedRows), cache, st) := acc
      let ((res, fr), cache', st') :=
        processCsvBatchOptimized send batch environment cache enableBatching st
      ((succ + res.success, fail + res.failed, failedRows ++ fr), cache', st'))
    ((0, 0, []), dedupCache, s)

/-- `retry_failed_events(failed_rows, ...)` (processor.py lines 212-267):
one serialized pass over the failed rows, re-building each event and
sending it individually through a fresh unbatched client (the 0.5 s
inter-request delay does not affect the counts).  Returns
(success count, failed count) and the endpoint state. -/
def retryFailedEvents {σ : Type} (send : Payload → σ → Bool × σ)
    (failedRows : List Row) (environment : String) (s : σ) : (ℕ × ℕ) × σ :=
  failedRows.foldl
    (fun acc row =>
      let ((succ, fail), st) := acc
      let (ok, st') := sendSingleEvent send (createMParticleEvent row environment) st
      (if ok then (succ + 1, fail) else (succ, fail + 1), st'))
    ((0, 0), s)

/-- The final tally returned by `process_csv_data` (processor.py lines
453-459). -/
structure Tally where
  total : ℕ
  success : ℕ
  failed : ℕ
  retrySuccessful : ℕ
  deduplicated : ℕ
deriving DecidableEq, Repr

/-- `process_csv_data(...)` (processor.py lines 270-459) along its
streaming path, with the input already parsed into rows (CSV reading is
out of core scope).  `enable_checkpoints` and `enable_auto_tuning` are
taken as `False` here: checkpointing only reads and writes the
checkpoint file and never feeds back into the returned tally, and
auto-tuning only replaces `batch_size`/`max_workers` by the monitor's
tuned values before each chunk — the theorems below instantiate
configurations with both disabled, and `PerformanceMonitor.autoTune`
is modelled separately for claim C8.

Flow embedded: build the dedup cache when enabled; stream the rows in
chunks of `chunk_size`, processing each through
`process_chunk_in_batches` and accumulating success/failed/processed
counts and the failed rows (lines 336-375); read the tally's
`deduplicated` field via `getattr(dedup_cache, 'deduplicated_count', 0)`
(line 411); when `retry_failed` and failures exist, run
`retry_failed_events` and set `final_failed = len(all_failed_rows) -
retry_successful` (lines 415-430); return the tally of lines 453-459. -/
def processCsvData {σ : Type} (send : Payload → σ → Bool × σ)
    (rows : List Row) (environment : String) (batchSize : ℕ)
    (retryFailed : Bool) (enableDeduplication : Bool) (enableBatching : Bool)
    (chunkSize : ℕ) (s : σ) : Tally × σ :=
  let dedupCache := if enableDeduplication then some (mkDeduplicationCache) else none
  let ((totalSuccessful, _totalFailed, totalProcessed, allFailedRows), cache, s1) :=
    (chunksOf chunkSize rows).foldl
      (fun acc chunk =>
        let ((succ, fail, processed, failedRows), cch, st) := acc
        if chunk.isEmpty then acc
        else
          let ((cs, cf, cfr), cch', st') :=
            processChunkInBatches send chunk environment batchSize cch enableBatching st
          ((succ + cs, fail + cf, processed + chunk.length, failedRows ++ cfr), cch', st'))
      ((0, 0, 0, []), dedupCache, s)
  let deduplicatedCount :=
    match cache with
    | some c => (dedupCacheDeduplicatedCountAttr c).getD 0
    | none => 0
  if retryFailed ∧ ¬allFailedRows.isEmpty then
    let ((retrySuccessful, _retryFailed), s2) :=
      retryFailedEvents send allFailedRows environment s1
    ({ total := totalProcessed
       success := totalSuccessful + retrySuccessful
       failed := allFailedRows.length - retrySuccessful
       retrySuccessful := retrySuccessful
       deduplicated := deduplicatedCount }, s2)
  else
    ({ total := totalProcessed
       success := totalSuccessful
       failed := allFailedRows.length
       retrySuccessful := 0
       deduplicated := deduplicatedCount }, s1)

/-! ### CircuitBreaker (api.py lines 60-105) -/

/-- The breaker's `self.state` string: `'CLOSED'`, `'OPEN'`, `'HALF_OPEN'`. -/
inductive BreakerState where
  | closed
  | opened
  | halfOpen
deriving DecidableEq, Repr

/-- What `CircuitBreaker.call` can raise: the breaker's own
`Exception("Circuit breaker is OPEN - API calls blocked")`, or the wrapped
operation's exception re-raised unchanged (api.py line 87). -/
inductive BreakerCallError where
  | breakerOpen
  | opError
deriving DecidableEq, Repr

/-- `CircuitBreaker` instance state (api.py lines 63-69).  Time is a
rational; `lastFailureTime` starts as `None`. -/
structure CircuitBreaker where
  failureThreshold : ℕ
  recoveryTimeout : ℚ
  failureCount : ℕ
  lastFailureTime : Option ℚ
  state : BreakerState
deriving DecidableEq, Repr

/-- `CircuitBreaker(failure_threshold, recovery_timeout)` constructor. -/
def mkCircuitBreaker (failureThreshold : ℕ := 5) (recoveryTimeout : ℚ := 60) :
    CircuitBreaker :=
  { failureThreshold := failureThreshold, recoveryTimeout := recoveryTimeout,
    failureCount := 0, lastFailureTime := none, state := .closed }

/-- `CircuitBreaker._record_failure` (api.py lines 89-97); `now` models the
`time.time()` read inside it. -/
def CircuitBreaker.recordFailure (cb : CircuitBreaker) (now : ℚ) : CircuitBreaker :=
  let c := cb.failureCount + 1
  { cb with
    failureCount := c
    lastFailureTime := some now
    state := if cb.failureThreshold ≤ c then .opened else cb.state }

/-- `CircuitBreaker._record_success` (api.py lines 99-105). -/
def CircuitBreaker.recordSuccess (cb : CircuitBreaker) : CircuitBreaker :=
  { cb with
    failureCount := 0
    state := if cb.state = .halfOpen then .closed else cb.state }

/-- `CircuitBreaker.call(func, ...)` (api.py lines 71-87).  The wrapped
operation is `op : Except Unit Bool` — either it raises (`.error ()`,
e.g. a `RequestException` out of `_make_api_request`) or it returns a
boolean (`_make_api_request` returns `False` on any non-2xx status
without raising, api.py lines 277-282).  A single instant `now` models
both `time.time()` reads of the call (the gate check and a possible
failure record).  Returns (result-or-raised-error, new breaker state,
number of times the operation was invoked).  When the state is `OPEN`
with `lastFailureTime = None` (unreachable, since only `_record_failure`
sets `OPEN` and it always records a time) the model fails fast like the
elapsed-check's `else` branch. -/
def CircuitBreaker.call (cb : CircuitBreaker) (now : ℚ) (op : Except Unit Bool) :
    Except BreakerCallError Bool × CircuitBreaker × ℕ :=
  let gate : Option CircuitBreaker :=
    match cb.state, cb.lastFailureTime with
    | .opened, some t =>
      if cb.recoveryTimeout < now - t then some { cb with state := .halfOpen } else none
    | .opened, none => none
    | _, _ => some cb
  match gate with
  | none => (.error .breakerOpen, cb, 0)
  | some cb1 =>
    match op with
    | .ok b => (.ok b, cb1.recordSuccess, 1)
    | .error _ => (.error .opError, cb1.recordFailure now, 1)

/-- `_send_single_event(event)` (api.py lines 226-232) with the breaker
state explicit: `try: return self.circuit_breaker.call(...)` with
`except Exception: return False` — every exception, the breaker's own
BreakerOpen error included, is caught and converted into `False`. -/
def sendSingleWithBreaker (cb : CircuitBreaker) (now : ℚ) (op : Except Unit Bool) :
    Bool × CircuitBreaker :=
  match cb.call now op with
  | (.ok b, cb', _) => (b, cb')
  | (.error _, cb', _) => (false, cb')

/-- `ts.foldl`: a sequence of consecutive `call`s whose wrapped operation
raises each time (consecutive failures), at the given times. -/
def failCalls (cb : CircuitBreaker) (ts : List ℚ) : CircuitBreaker :=
  ts.foldl (fun c t => (c.call t (.error ())).2.1) cb

/-! ### RateLimiter (api.py lines 28-57) -/

/-- The eviction loop `while self.requests and self.requests[0] <= now -
self.time_window: self.requests.popleft()` (api.py lines 43-44 and
54-55): on a time-sorted deque this drops exactly the leading expired
entries. -/
def evictOld (timeWindow : ℚ) (requests : List ℚ) (now : ℚ) : List ℚ :=
  requests.dropWhile (fun a => decide (a ≤ now - timeWindow))

/-- `RateLimiter` instance state (api.py lines 31-35): the deque of
admission timestamps, oldest first. -/
structure RateLimiter where
  maxRequests : ℕ
  timeWindow : ℚ
  requests : List ℚ
deriving DecidableEq, Repr

/-- `RateLimiter(max_requests, time_window)` constructor. -/
def mkRateLimiter (maxRequests : ℕ := 100) (timeWindow : ℚ := 60) : RateLimiter :=
  { maxRequests := maxRequests, timeWindow := timeWindow, requests := [] }

/-- `RateLimiter.acquire()` (api.py lines 37-57), the whole body under the
lock: evict expired entries; if the window is full, sleep for
`time_window - (now - requests[0]) + 0.1` seconds (one `time.sleep`,
after which the clock reads `now + sleep`), re-run the eviction loop at
the new time, and only then record the admission.  Returns the updated
limiter and the recorded admission timestamp.  `time.sleep` is modelled
as advancing the clock by exactly the requested amount. -/
def RateLimiter.acquire (rl : RateLimiter) (now : ℚ) : RateLimiter × ℚ :=
  let d1 := evictOld rl.timeWindow rl.requests now
  if rl.maxRequests ≤ d1.length then
    let sleepT := rl.timeWindow - (now - d1.headI) + 1 / 10
    let now2 := now + sleepT
    let d2 := evictOld rl.timeWindow d1 now2
    ({ rl with requests := d2 ++ [now2] }, now2)
  else
    ({ rl with requests := d1 ++ [now] }, now)

/-- Run a sequence of `acquire` calls at the given clock readings,
collecting the recorded admission timestamps in order. -/
def runAcquires (rl : RateLimiter) : List ℚ → RateLimiter × List ℚ
  | [] => (rl, [])
  | t :: ts =>
    let r := rl.acquire t
    let rest := runAcquires r.1 ts
    (rest.1, r.2 :: rest.2)

/-- The clock readings of successive `acquire` calls are monotone: each
call happens no earlier than the instant the previous call recorded its
admission (and the first no earlier than some start instant `clock`) —
`time.time()` never runs backwards, and `acquire` returns at its
admission instant. -/
def ValidCalls (clock : ℚ) (rl : RateLimiter) : List ℚ → Prop
  | [] => True
  | t :: ts => clock ≤ t ∧ ValidCalls (rl.acquire t).2 (rl.acquire t).1 ts

/-! ### PerformanceMonitor (utils.py lines 239-327) -/

/-- `PerformanceMonitor` state: the five `deque(maxlen=20)` metric ring
buffers and the current tuned values. -/
structure PerformanceMonitor where
  batchTimes : List ℚ
  successRates : List ℚ
  memoryUsage : List ℚ
  cpuUsage : List ℚ
  throughput : List ℚ
  optimalBatchSize : ℕ
  optimalWorkers : ℕ
deriving DecidableEq, Repr

/-- `PerformanceMonitor()` constructor (utils.py lines 242-252):
`optimal_batch_size = 100`, `optimal_workers = 10`. -/
def mkPerformanceMonitor : PerformanceMonitor :=
  { batchTimes := [], successRates := [], memoryUsage := [], cpuUsage := [],
    throughput := [], optimalBatchSize := 100, optimalWorkers := 10 }

/-- `deque(maxlen=20).append(x)`: append, evicting from the front past
capacity 20. -/
def pushCap20 (l : List ℚ) (x : ℚ) : List ℚ :=
  (l ++ [x]).drop ((l.length + 1) - 20)

/-- `PerformanceMonitor.record_batch_metrics` (utils.py lines 254-273);
`memPct`/`cpuPct` stand for the `psutil` readings, which are
environment inputs. -/
def PerformanceMonitor.recordBatchMetrics (m : PerformanceMonitor)
    (duration : ℚ) (successCount totalCount : ℕ) (memPct cpuPct : ℚ) :
    PerformanceMonitor :=
  { m with
    batchTimes := pushCap20 m.batchTimes duration
    successRates := pushCap20 m.successRates
      (if 0 < totalCount then (successCount : ℚ) / totalCount else 0)
    memoryUsage := pushCap20 m.memoryUsage memPct
    cpuUsage := pushCap20 m.cpuUsage cpuPct
    throughput := pushCap20 m.throughput
      (if 0 < duration then (totalCount : ℚ) / duration else 0) }

/-- `statistics.mean` on a metric buffer. -/
def listMean (l : List ℚ) : ℚ := l.sum / l.length

/-- The scale-up condition of `auto_tune_parameters` (utils.py lines
295-296): `avg_memory < 70 and avg_cpu < 80 and avg_success_rate > 0.95
and avg_throughput > 10`. -/
def tuneUpCond (m : PerformanceMonitor) : Prop :=
  listMean m.memoryUsage < 70 ∧ listMean m.cpuUsage < 80 ∧
    95 / 100 < listMean m.successRates ∧ 10 < listMean m.throughput

/-- The scale-down condition of `auto_tune_parameters` (utils.py line
302): `avg_success_rate < 0.8 or avg_memory > 90 or avg_cpu > 95`. -/
def tuneDownCond (m : PerformanceMonitor) : Prop :=
  listMean m.successRates < 8 / 10 ∨ 90 < listMean m.memoryUsage ∨
    95 < listMean m.cpuUsage

instance (m : PerformanceMonitor) : Decidable (tuneUpCond m) := by
  unfold tuneUpCond; infer_instance

instance (m : PerformanceMonitor) : Decidable (tuneDownCond m) := by
  unfold tuneDownCond; infer_instance

/-- `PerformanceMonitor.auto_tune_parameters()` (utils.py lines 275-312).
The Python `int(x * 1.1)` / `int(x * 0.9)` truncations are modelled as
the exact natural-number floors `x * 11 / 10` / `x * 9 / 10`; for every
batch size reachable from the initial 100 under these updates (all of
them ≤ 220) the float computation rounds to a value whose truncation
coincides with the exact floor. -/
def PerformanceMonitor.autoTune (m : PerformanceMonitor) :
    (ℕ × ℕ) × PerformanceMonitor :=
  if m.batchTimes.length < 5 then ((m.optimalBatchSize, m.optimalWorkers), m)
  else if tuneUpCond m then
    let m' := { m with
      optimalBatchSize := min 200 (m.optimalBatchSize * 11 / 10)
      optimalWorkers := min 20 (m.optimalWorkers + 1) }
    ((m'.optimalBatchSize, m'.optimalWorkers), m')
  else if tuneDownCond m then
    let m' := { m with
      optimalBatchSize := max 50 (m.optimalBatchSize * 9 / 10)
      optimalWorkers := max 3 (m.optimalWorkers - 1) }
    ((m'.optimalBatchSize, m'.optimalWorkers), m')
  else ((m.optimalBatchSize, m.optimalWorkers), m)

/-! ### ProcessingCheckpoint (utils.py lines 168-236) -/

/-- `ProcessingCheckpoint` in-memory state (utils.py lines 171-178). -/
structure ProcessingCheckpoint where
  processedCount : ℕ
  failedEvents : List Row
  startTime : ℚ
  totalRows : ℕ
  successCount : ℕ
deriving DecidableEq, Repr

/-- A fresh `ProcessingCheckpoint()`: counters at their defaults;
`start_time = time.time()` is the `startTime` parameter. -/
def mkProcessingCheckpoint (startTime : ℚ := 0) : ProcessingCheckpoint :=
  { processedCount := 0, failedEvents := [], startTime := startTime,
    totalRows := 0, successCount := 0 }

/-- The dict pickled by `save_checkpoint` (utils.py lines 182-189). -/
structure CheckpointData where
  processedCount : ℕ
  failedEvents : List Row
  startTime : ℚ
  totalRows : ℕ
  successCount : ℕ
  timestamp : ℚ
deriving DecidableEq, Repr

/-- The checkpoint file's condition: missing, unreadable/corrupt (any
content `pickle.load` or the subsequent dict access fails on), or a
well-formed pickled snapshot dict. -/
inductive CheckpointFile where
  | absent
  | corrupt
  | wellFormed (d : CheckpointData)
deriving DecidableEq, Repr

/-- `ProcessingCheckpoint.save_checkpoint()` (utils.py lines 180-196):
the file content it produces; `now` is the `time.time()` stamp. -/
def ProcessingCheckpoint.saveCheckpoint (c : ProcessingCheckpoint) (now : ℚ) :
    CheckpointFile :=
  .wellFormed
    { processedCount := c.processedCount, failedEvents := c.failedEvents,
      startTime := c.startTime, totalRows := c.totalRows,
      successCount := c.successCount, timestamp := now }

/-- `ProcessingCheckpoint.load_checkpoint()` (utils.py lines 198-223):
missing file returns `False` (lines 205-206); a load/parse failure is
caught and returns `False` before any field assignment (lines 221-223);
a well-formed snapshot restores every field and returns `True`. -/
def ProcessingCheckpoint.loadCheckpoint (c : ProcessingCheckpoint)
    (f : CheckpointFile) : Bool × ProcessingCheckpoint :=
  match f with
  | .absent => (false, c)
  | .corrupt => (false, c)
  | .wellFormed d =>
    (true,
      { processedCount := d.processedCount, failedEvents := d.failedEvents,
        startTime := d.startTime, totalRows := d.totalRows,
        successCount := d.successCount })

/-- `ProcessingCheckpoint.should_save_checkpoint()` (utils.py lines
234-236). -/
def ProcessingCheckpoint.shouldSaveCheckpoint (c : ProcessingCheckpoint) : Bool :=
  c.processedCount % 1000 = 0

/-! ### HTTP retry configuration (api.py lines 132-158, 265-286)

`_make_api_request` performs a single `session.post`; every retry the
program does at the HTTP level is delegated to the `urllib3.util.retry.
Retry` object mounted on the session by `_create_optimized_session`.  The
`Retry` semantics embedded below (retry statuses in `status_forcelist` up
to `total` times, sleeping `backoff_factor * 2^(n-1)` before the n-th
retry for `n ≥ 2` and nothing before the first, capped at
`DEFAULT_BACKOFF_MAX = 120`, raising once `total` is exhausted) are the
library's documented behaviour; the configuration values are the
source's. -/

/-- The arguments `_create_optimized_session` passes to `Retry`
(api.py lines 138-143). -/
structure RetryStrategy where
  total : ℕ
  backoffFactor : ℚ
  statusForcelist : List ℕ
deriving DecidableEq, Repr

/-- `Retry(total=3, backoff_factor=0.3, status_forcelist=[429, 500, 502,
503, 504], allowed_methods=["POST"])` (api.py lines 138-143). -/
def retryStrategy : RetryStrategy :=
  { total := 3, backoffFactor := 3 / 10, statusForcelist := [429, 500, 502, 503, 504] }

/-- urllib3's `Retry.DEFAULT_BACKOFF_MAX` (120 seconds). -/
def DEFAULT_BACKOFF_MAX : ℚ := 120

/-- urllib3's `Retry.get_backoff_time` with `consecutiveErrors` errors in
the retry history: zero before the first retry, then
`backoff_factor * 2^(n-1)` capped at `DEFAULT_BACKOFF_MAX`; no jitter. -/
def getBackoffTime (rs : RetryStrategy) (consecutiveErrors : ℕ) : ℚ :=
  if consecutiveErrors ≤ 1 then 0
  else min DEFAULT_BACKOFF_MAX (rs.backoffFactor * 2 ^ (consecutiveErrors - 1))

/-- One `session.post` against an endpoint that answers successive
attempts with `responses`: statuses in the forcelist are retried (with
the backoff sleep recorded) while retries remain, any other status is
returned at once; exhausting `total` retries (or the modelled response
list) raises (`requests.exceptions.RetryError`, a `RequestException`).
Returns the final status or the raised error, plus the sleeps performed
in order. -/
def sessionPost (rs : RetryStrategy) : List ℕ → ℕ → Except Unit ℕ × List ℚ
  | [], _ => (.error (), [])
  | status :: rest, errs =>
    if status ∈ rs.statusForcelist then
      if errs < rs.total then
        let r := sessionPost rs rest (errs + 1)
        (r.1, getBackoffTime rs (errs + 1) :: r.2)
      else (.error (), [])
    else (.ok status, [])

/-- `_make_api_request(payload)` (api.py lines 265-286) at the HTTP
level: the posted request resolves through the session's retry strategy;
a 2xx final status returns `True`, any other final status returns
`False` (no exception), and a `RequestException` (retry exhaustion
included) is re-raised (line 286).  Also returns the backoff sleeps the
session performed. -/
def makeApiRequest (responses : List ℕ) : Except Unit Bool × List ℚ :=
  match sessionPost retryStrategy responses 0 with
  | (.ok status, sleeps) => (.ok (decide (200 ≤ status ∧ status < 300)), sleeps)
  | (.error e, sleeps) => (.error e, sleeps)

/-- The `max_retries` parameter of the legacy wrapper
`send_event_to_mparticle` (api.py lines 299-320): default 5, and never
passed on — `OptimizedMParticleClient` takes no retry-count argument and
hard-codes `Retry(total=3, ...)`. -/
def sendEventToMparticleDefaultMaxRetries : ℕ := 5

/-- The per-attempt backoff the specification describes for `sendSingle`:
`2^attempt` seconds capped at 30, plus a uniform random jitter in
`[0, 1)`.  Modelled from the spec's words, for comparison with the
source-configured `getBackoffTime`. -/
def specClaimedBackoff (attempt : ℕ) (jitter : ℚ) : ℚ :=
  min ((2 : ℚ) ^ attempt) 30 + jitter

/-! ### Concrete scenario inputs and endpoint oracles -/

instance {ε α : Type} [DecidableEq ε] [DecidableEq α] : DecidableEq (Except ε α) :=
  fun a b =>
    match a, b with
    | .ok x, .ok y =>
      match decEq x y with
      | isTrue h => isTrue (by rw [h])
      | isFalse h => isFalse (by intro hc; cases hc; exact h rfl)
    | .error x, .error y =>
      match decEq x y with
      | isTrue h => isTrue (by rw [h])
      | isFalse h => isFalse (by intro hc; cases hc; exact h rfl)
    | .ok _, .error _ => isFalse (by intro hc; cases hc)
    | .error _, .ok _ => isFalse (by intro hc; cases hc)

/-- A sample coupon row. -/
def sampleRow : Row := [("email", "alice@example.com"), ("coupon_code", "SAVE10")]

/-- Ten records sharing identical content (same email and attributes). -/
def identicalRows10 : List Row := List.replicate 10 sampleRow

/-- An endpoint that answers every request with a 2xx status. -/
def alwaysOkSend : Payload → Unit → Bool × Unit := fun _ s => (true, s)

/-- The i-th of a family of pairwise distinct coupon rows. -/
def mkSampleRow (i : ℕ) : Row :=
  [("email", "user" ++ toString i ++ "@example.com"), ("coupon_code", "C" ++ toString i)]

/-- Ten pairwise distinct records. -/
def distinctRows10 : List Row := (List.range 10).map mkSampleRow

/-- Eleven pairwise distinct records (one more than the client's
sub-batch size of 10, so batched delivery splits them into two outbound
sub-requests). -/
def distinctRows11 : List Row := (List.range 11).map mkSampleRow

/-- The identities of the events carried by a payload, read off the
`event_id` custom attribute each event carries. -/
def payloadEventIds (p : Payload) : List Row :=
  p.events.filterMap (fun ed =>
    match ed.customAttributes.find? (fun kv => kv.1 = "event_id") with
    | some (_, AttrVal.uid r) => some r
    | _ => none)

/-- An endpoint that fails every event exactly once and then succeeds:
its state is the list of event identities it has already failed; a
request succeeds iff every event in it was failed before, and otherwise
fails while recording all its fresh events as failed once. -/
def failOnceSend : Payload → List Row → Bool × List Row := fun p s =>
  let ids := payloadEventIds p
  if ids.all (fun i => decide (i ∈ s)) then (true, s)
  else (false, s ++ ids.filter (fun i => decide (i ∉ s)))

/-- An endpoint for which combined multi-event sub-requests succeed and
single-event sub-requests fail: it distinguishes a batch whose
sub-requests have mixed outcomes. -/
def mixedSend : Payload → Unit → Bool × Unit := fun p s => (decide (1 < p.events.length), s)

/-- A one-request-per-second limiter whose window is full (one admission
recorded at time 0). -/
def rlFull : RateLimiter := { maxRequests := 1, timeWindow := 1, requests := [0] }

/-- A breaker that tripped OPEN at time 0 with the default thresholds. -/
def cbOpenAt0 : CircuitBreaker :=
  { failureThreshold := 5, recoveryTimeout := 60, failureCount := 5,
    lastFailureTime := some 0, state := .opened }

/-- A breaker probing in HALF_OPEN, its last failure at time 0. -/
def cbHalfOpen : CircuitBreaker :=
  { failureThreshold := 5, recoveryTimeout := 60, failureCount := 3,
    lastFailureTime := some 0, state := .halfOpen }

/-- A monitor that has collected five healthy samples (high success rate,
low resource use, high throughput). -/
def perfSampleHealthy : PerformanceMonitor :=
  { batchTimes := [1, 1, 1, 1, 1], successRates := [1, 1, 1, 1, 1],
    memoryUsage := [50, 50, 50, 50, 50], cpuUsage := [50, 50, 50, 50, 50],
    throughput := [20, 20, 20, 20, 20], optimalBatchSize := 100, optimalWorkers := 10 }

/-- The invariant a run of `acquire` calls maintains, relating the
limiter state `rl`, the full history `A` of recorded admission
timestamps (oldest first) and the current clock reading `clock` (the
instant the last admission was recorded): the deque is a suffix of the
history, history entries evicted from the deque have already fallen out
of every future window (`a + W ≤ clock`), the deque never exceeds
`maxR`, and any `maxR + 1` consecutive admissions span more than the
window (`A[i] + W ≤ A[i + maxR]`), which is exactly what bounds every
sliding window's admission count. -/
def RunInv (maxR : ℕ) (W : ℚ) (clock : ℚ) (rl : RateLimiter) (A : List ℚ) : Prop :=
  rl.maxRequests = maxR ∧ rl.timeWindow = W ∧
  List.Sorted (· ≤ ·) A ∧
  (∃ k, k ≤ A.length ∧ rl.requests = A.drop k ∧ ∀ a ∈ A.take k, a + W ≤ clock) ∧
  rl.requests.length ≤ maxR ∧
  (∀ a ∈ A, a ≤ clock) ∧
  (∀ i : ℕ, (h : i + maxR < A.length) →
    A.get ⟨i, Nat.lt_of_le_of_lt (Nat.le_add_right i maxR) h⟩ + W ≤ A.get ⟨i + maxR, h⟩)

/-! ## Theorems -/

/-- The row scan of `process_csv_batch_optimized` partitions the batch:
deduplicated rows plus rows queued for sending account for every row. -/
theorem collectEvents_partition (env : String) :
    ∀ (batch : List Row) (cache : Option DeduplicationCache),
      (collectEvents env batch cache).1 + (collectEvents env batch cache).2.1.length =
        batch.length := by
  intro batch
  induction batch with
  | nil => intro cache; simp [collectEvents]
  | cons row rest ih =>
    intro cache
    cases cache with
    | none =>
      have h := ih none
      simp only [collectEvents, List.length_cons]
      omega
    | some c =>
      have h := ih (some ((c.isDuplicate (createMParticleEvent row env)).2))
      simp only [collectEvents, List.length_cons]
      split
      · dsimp only; omega
      · dsimp only; simp only [List.length_cons]; omega

/-- The unbatched sending loop counts every queued row as success or
failure and returns exactly the failed rows. -/
theorem sendIndividually_partition {σ : Type} (send : Payload → σ → Bool × σ) :
    ∀ (l : List (Payload × Row)) (s : σ),
      (sendIndividually send l s).1.1 + (sendIndividually send l s).1.2.1 = l.length ∧
      (sendIndividually send l s).1.2.2.length = (sendIndividually send l s).1.2.1 := by
  intro l
  induction l with
  | nil => intro s; simp [sendIndividually]
  | cons er rest ih =>
    intro s
    obtain ⟨e, row⟩ := er
    obtain ⟨h1, h2⟩ := ih (sendSingleEvent send e s).2
    simp only [sendIndividually, List.length_cons]
    split
    · dsimp only; exact ⟨by omega, h2⟩
    · dsimp only; simp only [List.length_cons]; exact ⟨by omega, by omega⟩

/-- C10: for every input batch and every configuration (batched or
per-event mode, dedup cache present or absent), the counts returned by
`process_csv_batch_optimized` partition the batch — `success + failed +
deduplicated` equals the number of rows — and the returned failed-row
list has length exactly the `failed` count. -/
theorem processCsvBatchOptimized_partition {σ : Type} (send : Payload → σ → Bool × σ)
    (batch : List Row) (environment : String) (dedupCache : Option DeduplicationCache)
    (enableBatching : Bool) (s : σ) :
    (processCsvBatchOptimized send batch environment dedupCache enableBatching s).1.1.success +
      (processCsvBatchOptimized send batch environment dedupCache enableBatching s).1.1.failed +
      (processCsvBatchOptimized send batch environment dedupCache enableBatching s).1.1.deduplicated
      = batch.length ∧
    (processCsvBatchOptimized send batch environment dedupCache enableBatching s).1.2.length =
      (processCsvBatchOptimized send batch environment dedupCache enableBatching s).1.1.failed := by
  have hpart := collectEvents_partition environment batch dedupCache
  simp only [processCsvBatchOptimized]
  split
  · rename_i hempty
    rw [List.isEmpty_iff] at hempty
    dsimp only
    constructor
    · simp only [hempty, List.length_nil] at hpart; omega
    · simp
  · split
    · split
      · dsimp only
        constructor
        · omega
        · simp
      · dsimp only
        constructor
        · omega
        · simp
    · obtain ⟨h1, h2⟩ := sendIndividually_partition send
        (collectEvents environment batch dedupCache).2.1 s
      dsimp only
      exact ⟨by omega, h2⟩

/-- C1: running `process_csv_data` on 10 records of identical content with
deduplication enabled against an all-2xx endpoint.  The per-batch scan
does deduplicate 9 of the 10 rows and delivers 1 (second conjunct), but
the final tally reports `deduplicated = 0`, not 9: the tally reads
`getattr(dedup_cache, 'deduplicated_count', 0)` and `DeduplicationCache`
has no such attribute (third conjunct), while the per-batch
`deduplicated` counts are dropped by `process_chunk_in_batches`. -/
theorem processCsvData_identicalRows_dedupZero :
    (processCsvData alwaysOkSend identicalRows10 "development" 100 true true true 5000 ()).1 =
      { total := 10, success := 1, failed := 0, retrySuccessful := 0, deduplicated := 0 } ∧
    (processCsvBatchOptimized alwaysOkSend identicalRows10 "development"
        (some mkDeduplicationCache) true ()).1.1 =
      { success := 1, failed := 0, deduplicated := 9 } ∧
    dedupCacheDeduplicatedCountAttr mkDeduplicationCache = none := by
  refine ⟨by decide, by decide, rfl⟩

/-- C7: against an endpoint that fails every event exactly once and then
succeeds, a 10-record run with `retry_failed=true` ends with `failed = 0`
and `retry_successful = total = 10`: the whole first batched delivery
pass fails, all 10 rows are collected for retry, and the serialized
retry pass recovers every one of them. -/
theorem processCsvData_failOnce_retryRecoversAll :
    (processCsvData failOnceSend distinctRows10 "development" 100 true true true 5000 []).1 =
      { total := 10, success := 10, failed := 0, retrySuccessful := 10, deduplicated := 0 } := by
  decide

/-- C2 counterexample: an 11-record batch in batched mode splits into two
outbound sub-requests (10 combined + 1 single).  Against `mixedSend` the
combined sub-request succeeds and the single one fails — the client
reports `(success, failed) = (10, 1)` — yet `process_csv_batch_optimized`
counts all 11 records as success and returns an empty failed-row list:
the record of the failed sub-request is dropped, not returned for
retry. -/
theorem batchedMixedOutcome_dropsFailedRecord :
    (sendEventsBatch mixedSend 10
        ((collectEvents "development" distinctRows11 none).2.1.map (fun er => er.1)) ()).1 =
      (10, 1) ∧
    (processCsvBatchOptimized mixedSend distinctRows11 "development" none true ()).1 =
      ({ success := 11, failed := 0, deduplicated := 0 }, []) := by
  exact ⟨by decide, by decide⟩

/-- C2 amended: in batched mode, failure accounting is all-or-nothing per
batch.  If the aggregate sub-request success count is positive, every
surviving record is counted success and the failed-row list is empty;
records are counted failed and returned for retry only when the
aggregate success count is zero. -/
theorem batchedMode_allOrNothing {σ : Type} (send : Payload → σ → Bool × σ)
    (batch : List Row) (environment : String) (dedupCache : Option DeduplicationCache)
    (s : σ) :
    (0 < (sendEventsBatch send 10
          ((collectEvents environment batch dedupCache).2.1.map (fun er => er.1)) s).1.1 →
        (processCsvBatchOptimized send batch environment dedupCache true s).1.1.failed = 0 ∧
        (processCsvBatchOptimized send batch environment dedupCache true s).1.2 = []) ∧
    ((sendEventsBatch send 10
          ((collectEvents environment batch dedupCache).2.1.map (fun er => er.1)) s).1.1 = 0 →
        (processCsvBatchOptimized send batch environment dedupCache true s).1.1.failed =
          (collectEvents environment batch dedupCache).2.1.length ∧
        (processCsvBatchOptimized send batch environment dedupCache true s).1.2 =
          (collectEvents environment batch dedupCache).2.1.map (fun er => er.2)) := by
  simp only [processCsvBatchOptimized]
  split
  · rename_i hempty
    rw [List.isEmpty_iff] at hempty
    constructor
    · intro _; exact ⟨rfl, rfl⟩
    · intro _; simp [hempty]
  · constructor
    · intro hpos
      simp only [if_true]
      rw [if_pos hpos]
      exact ⟨rfl, rfl⟩
    · intro hzero
      simp only [if_true]
      rw [if_neg (by omega)]
      exact ⟨rfl, rfl⟩

/-- C2 amended, witness: the 11-record mixed scenario has aggregate
success count 10 > 0, and the theorem instantiated there yields
`failed = 0` and an empty failed-row list. -/
theorem batchedMode_allOrNothing_witness :
    0 < (sendEventsBatch mixedSend 10
        ((collectEvents "development" distinctRows11 none).2.1.map (fun er => er.1)) ()).1.1 ∧
    (processCsvBatchOptimized mixedSend distinctRows11 "development" none true ()).1.1.failed
      = 0 ∧
    (processCsvBatchOptimized mixedSend distinctRows11 "development" none true ()).1.2 = [] :=
  ⟨by decide,
   (batchedMode_allOrNothing mixedSend distinctRows11 "development" none ()).1 (by decide)⟩

/-- C9: a saved checkpoint snapshot loads back on a fresh
`ProcessingCheckpoint` with `True` and restores every saved counter and
the failed-event list (in particular `processed_count = 500` round-trips),
while an absent or corrupt checkpoint file loads as `False` and leaves
the fresh in-memory state at its defaults. -/
theorem checkpoint_roundtrip :
    (∀ (c : ProcessingCheckpoint) (now startTime : ℚ),
      (mkProcessingCheckpoint startTime).loadCheckpoint (c.saveCheckpoint now) = (true, c)) ∧
    ((mkProcessingCheckpoint 0).loadCheckpoint
        (ProcessingCheckpoint.saveCheckpoint
          { processedCount := 500, failedEvents := [], startTime := 0, totalRows := 1000,
            successCount := 400 } 7)).2.processedCount = 500 ∧
    (∀ startTime : ℚ,
      (mkProcessingCheckpoint startTime).loadCheckpoint .absent =
        (false, mkProcessingCheckpoint startTime)) ∧
    (∀ startTime : ℚ,
      (mkProcessingCheckpoint startTime).loadCheckpoint .corrupt =
        (false, mkProcessingCheckpoint startTime)) := by
  exact ⟨fun c now startTime => rfl, rfl, fun _ => rfl, fun _ => rfl⟩

/-- A non-raising operation passes through a CLOSED breaker unchanged:
`call` returns its boolean and the breaker stays CLOSED (this is why the
pipeline model can treat `_send_single_event` as the endpoint oracle when
the endpoint answers with statuses). -/
theorem CircuitBreaker.call_ok (cb : CircuitBreaker) (now : ℚ) (b : Bool)
    (h : cb.state = .closed) :
    cb.call now (.ok b) = (.ok b, cb.recordSuccess, 1) ∧
    cb.recordSuccess.state = .closed := by
  constructor
  · simp [CircuitBreaker.call, h]
  · simp [CircuitBreaker.recordSuccess, h]

/-- Folding consecutive failing calls over a CLOSED breaker that has
headroom `failureCount + n ≤ failureThreshold`: every call invokes the
operation (the gate stays permissive), the failure count grows by one per
call, the thresholds are untouched, and the state ends OPEN exactly when
the count reaches the threshold on a nonempty run. -/
theorem failCalls_spec : ∀ (ts : List ℚ) (cb : CircuitBreaker),
    cb.state = .closed → cb.failureCount + ts.length ≤ cb.failureThreshold →
    (failCalls cb ts).failureThreshold = cb.failureThreshold ∧
    (failCalls cb ts).recoveryTimeout = cb.recoveryTimeout ∧
    (failCalls cb ts).failureCount = cb.failureCount + ts.length ∧
    (failCalls cb ts).state =
      (if cb.failureCount + ts.length = cb.failureThreshold ∧ ts ≠ [] then
        BreakerState.opened else BreakerState.closed) := by
  intro ts
  induction ts with
  | nil =>
    intro cb hst _
    refine ⟨rfl, rfl, rfl, ?_⟩
    simpa [failCalls] using hst
  | cons t ts ih =>
    intro cb hst hle
    have hstep : (cb.call t (.error ())).2.1 = cb.recordFailure t := by
      simp [CircuitBreaker.call, hst]
    have hunfold : failCalls cb (t :: ts) = failCalls ((cb.call t (.error ())).2.1) ts := rfl
    rw [hunfold, hstep]
    simp only [List.length_cons] at hle ⊢
    have hthr : (cb.recordFailure t).failureThreshold = cb.failureThreshold := rfl
    have hto : (cb.recordFailure t).recoveryTimeout = cb.recoveryTimeout := rfl
    have hcnt : (cb.recordFailure t).failureCount = cb.failureCount + 1 := rfl
    by_cases hth : cb.failureThreshold ≤ cb.failureCount + 1
    · have hts : ts = [] := by
        have h0 : ts.length = 0 := by omega
        exact List.length_eq_zero.mp h0
      subst hts
      simp only [List.length_nil] at hle ⊢
      have hopen : (cb.recordFailure t).state = .opened := by
        simp [CircuitBreaker.recordFailure, hth]
      have hfc : failCalls (cb.recordFailure t) [] = cb.recordFailure t := rfl
      rw [hfc]
      have hcond : cb.failureCount + (0 + 1) = cb.failureThreshold ∧ t :: ([] : List ℚ) ≠ [] :=
        ⟨by omega, by simp⟩
      exact ⟨hthr, hto, by omega, by rw [hopen, if_pos hcond]⟩
    · have hcl : (cb.recordFailure t).state = .closed := by
        simp [CircuitBreaker.recordFailure, hth, hst]
      obtain ⟨i1, i2, i3, i4⟩ := ih (cb.recordFailure t) hcl (by rw [hcnt, hthr]; omega)
      rw [hcnt] at i3
      rw [hcnt, hthr] at i4
      refine ⟨by rw [i1, hthr], by rw [i2, hto], by rw [i3]; omega, ?_⟩
      rw [i4]
      by_cases hts : ts = []
      · subst hts
        rw [if_neg (by simp), if_neg ?_]
        rintro ⟨he, -⟩
        simp only [List.length_nil] at he
        omega
      · have hiff : (cb.failureCount + 1 + ts.length = cb.failureThreshold ∧ ts ≠ []) ↔
            (cb.failureCount + (ts.length + 1) = cb.failureThreshold ∧ t :: ts ≠ []) := by
          constructor
          · rintro ⟨ha, -⟩; exact ⟨by omega, by simp⟩
          · rintro ⟨ha, -⟩; exact ⟨by omega, hts⟩
        rw [if_congr hiff rfl rfl]

/-- C5: the breaker lifecycle.  (a) After `failure_threshold` consecutive
failures from a fresh breaker, the next `call` made before the recovery
timeout has elapsed fails with the BreakerOpen error without invoking
the operation.  (b) If the breaker is OPEN and `recovery_timeout` has
elapsed since the last failure, the next `call` invokes the operation
exactly once (the HALF_OPEN probe).  (c) A success while HALF_OPEN
returns the operation's result, moves the state to CLOSED and resets
`failure_count` to 0. -/
theorem circuitBreaker_lifecycle :
    (∀ (th : ℕ) (timeout : ℚ) (ts : List ℚ) (now : ℚ) (op : Except Unit Bool),
      1 ≤ th → ts.length = th →
      (∀ t : ℚ, (failCalls (mkCircuitBreaker th timeout) ts).lastFailureTime = some t →
          now - t ≤ timeout) →
      (failCalls (mkCircuitBreaker th timeout) ts).call now op =
        (.error .breakerOpen, failCalls (mkCircuitBreaker th timeout) ts, 0)) ∧
    (∀ (cb : CircuitBreaker) (now t : ℚ) (op : Except Unit Bool),
      cb.state = .opened → cb.lastFailureTime = some t → cb.recoveryTimeout < now - t →
      (cb.call now op).2.2 = 1) ∧
    (∀ (cb : CircuitBreaker) (now : ℚ) (b : Bool),
      cb.state = .halfOpen →
      (cb.call now (.ok b)).1 = .ok b ∧
      ((cb.call now (.ok b)).2.1).state = .closed ∧
      ((cb.call now (.ok b)).2.1).failureCount = 0) := by
  refine ⟨?_, ?_, ?_⟩
  · intro th timeout ts now op hth hlen hnow
    obtain ⟨e1, e2, e3, e4⟩ := failCalls_spec ts (mkCircuitBreaker th timeout)
      rfl (by simp [mkCircuitBreaker, hlen])
    have hts : ts ≠ [] := by
      intro h; subst h; simp at hlen; omega
    have hopen : (failCalls (mkCircuitBreaker th timeout) ts).state = .opened := by
      rw [e4, if_pos ⟨by simp [mkCircuitBreaker, hlen], hts⟩]
    set cb' := failCalls (mkCircuitBreaker th timeout) ts with hcb'
    cases hlast : cb'.lastFailureTime with
    | none => simp [CircuitBreaker.call, hopen, hlast]
    | some t =>
      have h1 : now - t ≤ timeout := hnow t hlast
      have h2 : ¬ cb'.recoveryTimeout < now - t := by
        rw [e2]; simp [mkCircuitBreaker]; linarith
      simp [CircuitBreaker.call, hopen, hlast, h2]
  · intro cb now t op hst hlast helapsed
    simp only [CircuitBreaker.call, hst, hlast, if_pos helapsed]
    cases op <;> rfl
  · intro cb now b hst
    have hgate : (cb.call now (.ok b)) = (.ok b, cb.recordSuccess, 1) := by
      simp [CircuitBreaker.call, hst]
    rw [hgate]
    exact ⟨rfl, by simp [CircuitBreaker.recordSuccess, hst], rfl⟩

/-- C5 witness: with threshold 2, two failures at times 0 and 1; a call
at time 30 (timeout 60 not elapsed) fails fast with zero invocations;
the elapsed OPEN breaker `cbOpenAt0` probed at time 100 invokes once;
a HALF_OPEN success closes the breaker and zeroes the count. -/
theorem circuitBreaker_lifecycle_witness :
    ((1 : ℕ) ≤ 2 ∧ ([(0 : ℚ), 1]).length = 2) ∧
    (failCalls (mkCircuitBreaker 2 60) [0, 1]).call 30 (.ok true) =
      (.error .breakerOpen, failCalls (mkCircuitBreaker 2 60) [0, 1], 0) ∧
    (cbOpenAt0.call 100 (.ok true)).2.2 = 1 ∧
    ((cbHalfOpen.call 5 (.ok true)).1 = .ok true ∧
      ((cbHalfOpen.call 5 (.ok true)).2.1).state = .closed ∧
      ((cbHalfOpen.call 5 (.ok true)).2.1).failureCount = 0) :=
  ⟨⟨by decide, by decide⟩,
   circuitBreaker_lifecycle.1 2 60 [0, 1] 30 (.ok true) (by decide) (by decide)
     (by
       intro t ht
       have hc : failCalls (mkCircuitBreaker 2 60) [0, 1] =
           { failureThreshold := 2, recoveryTimeout := 60, failureCount := 2,
             lastFailureTime := some 1, state := .opened } := by decide
       rw [hc] at ht
       simp only [Option.some.injEq] at ht
       rw [← ht]
       norm_num),
   circuitBreaker_lifecycle.2.1 cbOpenAt0 100 0 (.ok true) rfl rfl (by norm_num [cbOpenAt0]),
   circuitBreaker_lifecycle.2.2 cbHalfOpen 5 true rfl⟩

/-- C3 counterexample: with the breaker OPEN since time 0 and the
recovery timeout (60) not elapsed at time 10, the inner
`circuit_breaker.call` raises the BreakerOpen error — but
`_send_single_event` catches it and returns `False`: the error is not
propagated to the caller. -/
theorem sendSingle_breakerOpen_caught :
    cbOpenAt0.call 10 (.ok true) = (.error .breakerOpen, cbOpenAt0, 0) ∧
    sendSingleWithBreaker cbOpenAt0 10 (.ok true) = (false, cbOpenAt0) := by
  have hgate : cbOpenAt0.call 10 (.ok true) = (.error .breakerOpen, cbOpenAt0, 0) := by
    simp only [CircuitBreaker.call, cbOpenAt0]
    norm_num
  exact ⟨hgate, by simp only [sendSingleWithBreaker, hgate]⟩

/-- C3 amended: `sendSingle` always returns a boolean and never raises
past its boundary — not even BreakerOpen.  It returns the operation's
boolean when the call goes through, returns `False` whenever the inner
call raises anything, and in particular, when the breaker is Open and
the recovery timeout has not elapsed it returns `False` without the
operation being invoked. -/
theorem sendSingle_neverRaises (cb : CircuitBreaker) (now : ℚ) (op : Except Unit Bool) :
    (∀ b, (cb.call now op).1 = .ok b →
      sendSingleWithBreaker cb now op = (b, (cb.call now op).2.1)) ∧
    (∀ e, (cb.call now op).1 = .error e →
      sendSingleWithBreaker cb now op = (false, (cb.call now op).2.1)) ∧
    (cb.state = .opened →
      (∀ t, cb.lastFailureTime = some t → now - t ≤ cb.recoveryTimeout) →
      sendSingleWithBreaker cb now op = (false, cb) ∧ (cb.call now op).2.2 = 0) := by
  refine ⟨?_, ?_, ?_⟩
  · intro b hb
    rcases hc : cb.call now op with ⟨res, cb', n⟩
    rw [hc] at hb
    simp only at hb
    subst hb
    simp [sendSingleWithBreaker, hc]
  · intro e he
    rcases hc : cb.call now op with ⟨res, cb', n⟩
    rw [hc] at he
    simp only at he
    subst he
    simp [sendSingleWithBreaker, hc]
  · intro hst hlast
    have hgate : cb.call now op = (.error .breakerOpen, cb, 0) := by
      cases hl : cb.lastFailureTime with
      | none => simp [CircuitBreaker.call, hst, hl]
      | some t =>
        have h2 : ¬ cb.recoveryTimeout < now - t := not_lt.mpr (hlast t hl)
        simp [CircuitBreaker.call, hst, hl, h2]
    exact ⟨by simp [sendSingleWithBreaker, hgate], by rw [hgate]⟩

/-- C3 amended, witness: the OPEN-at-0 breaker consulted at time 10 with
a would-succeed operation: `sendSingle` returns `False` with the
operation never invoked. -/
theorem sendSingle_neverRaises_witness :
    cbOpenAt0.state = .opened ∧
    sendSingleWithBreaker cbOpenAt0 10 (.ok true) = (false, cbOpenAt0) ∧
    (cbOpenAt0.call 10 (.ok true)).2.2 = 0 :=
  ⟨rfl,
   ((sendSingle_neverRaises cbOpenAt0 10 (.ok true)).2.2 rfl
     (by
       intro t ht
       simp only [cbOpenAt0, Option.some.injEq] at ht
       rw [← ht]
       norm_num [cbOpenAt0])).1,
   ((sendSingle_neverRaises cbOpenAt0 10 (.ok true)).2.2 rfl
     (by
       intro t ht
       simp only [cbOpenAt0, Option.some.injEq] at ht
       rw [← ht]
       norm_num [cbOpenAt0])).2⟩

/-- The scale-up and scale-down conditions of `auto_tune_parameters` are
mutually exclusive: each disjunct of the down condition contradicts one
conjunct of the up condition. -/
theorem tune_conds_exclusive (m : PerformanceMonitor) :
    ¬ (tuneUpCond m ∧ tuneDownCond m) := by
  rintro ⟨⟨hm, hc, hs, -⟩, hd⟩
  rcases hd with h | h | h <;> linarith

/-- C8: `auto_tune_parameters` returns the current `(batch_size, workers)`
unchanged with fewer than 5 samples; with 5 or more it scales batch size
up by 10% (cap 200) and workers up by 1 (cap 20) exactly when the mean
success rate exceeds 0.95, mean memory is below 70, mean cpu below 80
and mean throughput above 10; scales down by 10% (floor 50) and one
worker (floor 3) exactly when mean success rate is below 0.8 or mean
memory above 90 or mean cpu above 95 (the two conditions are mutually
exclusive); leaves both unchanged otherwise — and consequently keeps
`batch_size` within [50, 200] and `workers` within [3, 20] from the
initial values (100, 10). -/
theorem autoTune_spec :
    (∀ m : PerformanceMonitor, m.batchTimes.length < 5 →
      m.autoTune = ((m.optimalBatchSize, m.optimalWorkers), m)) ∧
    (∀ m : PerformanceMonitor, 5 ≤ m.batchTimes.length → tuneUpCond m →
      m.autoTune.1 =
        (min 200 (m.optimalBatchSize * 11 / 10), min 20 (m.optimalWorkers + 1))) ∧
    (∀ m : PerformanceMonitor, 5 ≤ m.batchTimes.length → tuneDownCond m →
      m.autoTune.1 =
        (max 50 (m.optimalBatchSize * 9 / 10), max 3 (m.optimalWorkers - 1))) ∧
    (∀ m : PerformanceMonitor, 5 ≤ m.batchTimes.length → ¬ tuneUpCond m →
      ¬ tuneDownCond m → m.autoTune.1 = (m.optimalBatchSize, m.optimalWorkers)) ∧
    (∀ m : PerformanceMonitor, ¬ (tuneUpCond m ∧ tuneDownCond m)) ∧
    (∀ m : PerformanceMonitor,
      50 ≤ m.optimalBatchSize → m.optimalBatchSize ≤ 200 →
      3 ≤ m.optimalWorkers → m.optimalWorkers ≤ 20 →
      50 ≤ m.autoTune.1.1 ∧ m.autoTune.1.1 ≤ 200 ∧
      3 ≤ m.autoTune.1.2 ∧ m.autoTune.1.2 ≤ 20) ∧
    (mkPerformanceMonitor.optimalBatchSize = 100 ∧ mkPerformanceMonitor.optimalWorkers = 10) := by
  refine ⟨?_, ?_, ?_, ?_, tune_conds_exclusive, ?_, rfl, rfl⟩
  · intro m h
    simp [PerformanceMonitor.autoTune, h]
  · intro m h hup
    simp only [PerformanceMonitor.autoTune]
    rw [if_neg (by omega), if_pos hup]
  · intro m h hdown
    have hup : ¬ tuneUpCond m := fun hu => tune_conds_exclusive m ⟨hu, hdown⟩
    simp only [PerformanceMonitor.autoTune]
    rw [if_neg (by omega), if_neg hup, if_pos hdown]
  · intro m h hup hdown
    simp only [PerformanceMonitor.autoTune]
    rw [if_neg (by omega), if_neg hup, if_neg hdown]
  · intro m h50 h200 h3 h20
    simp only [PerformanceMonitor.autoTune]
    split_ifs with h1 h2 h3'
    · exact ⟨h50, h200, h3, h20⟩
    · refine ⟨?_, ?_, ?_, ?_⟩ <;> dsimp only <;> omega
    · refine ⟨?_, ?_, ?_, ?_⟩ <;> dsimp only <;> omega
    · exact ⟨h50, h200, h3, h20⟩

/-- C8 witness: a monitor with five healthy samples and the initial
`(100, 10)` tunes to `(min 200 110, min 20 11) = (110, 11)`, and stays in
bounds. -/
theorem autoTune_spec_witness :
    5 ≤ perfSampleHealthy.batchTimes.length ∧ tuneUpCond perfSampleHealthy ∧
    perfSampleHealthy.autoTune.1 =
      (min 200 (perfSampleHealthy.optimalBatchSize * 11 / 10),
       min 20 (perfSampleHealthy.optimalWorkers + 1)) ∧
    (50 ≤ perfSampleHealthy.autoTune.1.1 ∧ perfSampleHealthy.autoTune.1.1 ≤ 200 ∧
      3 ≤ perfSampleHealthy.autoTune.1.2 ∧ perfSampleHealthy.autoTune.1.2 ≤ 20) :=
  ⟨by decide,
   by norm_num [tuneUpCond, perfSampleHealthy, listMean],
   autoTune_spec.2.1 perfSampleHealthy (by decide)
     (by norm_num [tuneUpCond, perfSampleHealthy, listMean]),
   autoTune_spec.2.2.2.2.2.1 perfSampleHealthy (by decide) (by decide) (by decide) (by decide)⟩

/-- Shared evaluation of the 429-429-2xx scenario: the request succeeds
after two retries, having slept 0 seconds before the first retry and
`0.3 * 2 = 0.6` seconds before the second. -/
theorem makeApiRequest_scenario429 :
    makeApiRequest [429, 429, 200] = (.ok true, [0, 3 / 5]) := by
  have h1 : getBackoffTime retryStrategy 1 = 0 := by
    norm_num [getBackoffTime]
  have h2 : getBackoffTime retryStrategy 2 = 3 / 5 := by
    norm_num [getBackoffTime, retryStrategy, DEFAULT_BACKOFF_MAX]
  simp [makeApiRequest, sessionPost, retryStrategy, h1, h2]
  norm_num [retryStrategy] at h1 h2
  simp [h1, h2]

/-- C4 counterexample: against an endpoint answering 429, 429 then 2xx,
the request does succeed, but with exactly one positive backoff sleep
(0.6 s, from `backoff_factor = 0.3`), not two; the single positive sleep
is below the claim's minimum possible backoff `min(2^0, 30) + 0 = 1`;
and the retry budget is the hard-coded `Retry(total=3)`, not the
`max_retries` parameter (default 5), which the client never reads. -/
theorem sendSingleRetry_configMismatch :
    makeApiRequest [429, 429, 200] = (.ok true, [0, 3 / 5]) ∧
    ((makeApiRequest [429, 429, 200]).2.filter (fun q => decide (0 < q))).length = 1 ∧
    (3 / 5 : ℚ) < specClaimedBackoff 0 0 ∧
    retryStrategy.total = 3 ∧
    sendEventToMparticleDefaultMaxRetries = 5 ∧
    retryStrategy.total ≠ sendEventToMparticleDefaultMaxRetries := by
  refine ⟨makeApiRequest_scenario429, ?_, ?_, rfl, rfl, by decide⟩
  · rw [makeApiRequest_scenario429]
    simp only [List.filter]
    norm_num
  · norm_num [specClaimedBackoff]

/-- C4 amended: the retries of `sendSingle` happen inside the HTTP
session's urllib3 `Retry`, configured with `total = 3` and
`backoff_factor = 0.3`: statuses in {429, 500, 502, 503, 504} are
retried with sleeps `0.3 * 2^(n-1)` capped at 120 before the n-th retry
for `n ≥ 2` (the first retry sleeps 0, and there is no jitter),
independent of the `max_retries` parameter; any other non-2xx status is
terminal — returned immediately with no retry and no sleep, making
`_make_api_request` return `False`; and the 429-429-2xx scenario
succeeds after two retries with sleeps `[0, 0.6]`. -/
theorem sessionRetry_semantics :
    (∀ status : ℕ, status ∉ retryStrategy.statusForcelist →
      sessionPost retryStrategy [status] 0 = (.ok status, [])) ∧
    (∀ status : ℕ, status ∉ retryStrategy.statusForcelist →
      ¬ (200 ≤ status ∧ status < 300) → makeApiRequest [status] = (.ok false, [])) ∧
    makeApiRequest [429, 429, 200] = (.ok true, [0, 3 / 5]) ∧
    getBackoffTime retryStrategy 1 = 0 ∧
    (∀ n : ℕ, 2 ≤ n →
      getBackoffTime retryStrategy n = min 120 ((3 / 10) * 2 ^ (n - 1))) ∧
    retryStrategy.total = 3 := by
  refine ⟨?_, ?_, makeApiRequest_scenario429, by norm_num [getBackoffTime], ?_, rfl⟩
  · intro status hmem
    simp [sessionPost, hmem]
  · intro status hmem h2xx
    simp [makeApiRequest, sessionPost, hmem, h2xx]
  · intro n hn
    rw [getBackoffTime, if_neg (by omega)]
    simp [retryStrategy, DEFAULT_BACKOFF_MAX]

/-- C4 amended, witness: status 403 is not in the forcelist: it is
returned at once with no sleeps, and `_make_api_request` reports
`False`. -/
theorem sessionRetry_semantics_witness :
    (403 ∉ retryStrategy.statusForcelist) ∧
    sessionPost retryStrategy [403] 0 = (.ok 403, []) ∧
    makeApiRequest [403] = (.ok false, []) :=
  ⟨by decide,
   sessionRetry_semantics.1 403 (by decide),
   sessionRetry_semantics.2.1 403 (by decide) (by decide)⟩

/-- `dropWhile` drops an initial segment: it equals `drop` of the
`takeWhile` length. -/
theorem dropWhile_eq_drop (p : ℚ → Bool) (l : List ℚ) :
    l.dropWhile p = l.drop (l.takeWhile p).length := by
  have hsplit := List.takeWhile_append_dropWhile (p := p) (l := l)
  have hdl := List.drop_left (l.takeWhile p) (l.dropWhile p)
  rw [hsplit] at hdl
  exact hdl.symm

/-- One `acquire` call preserves the run invariant: the call's clock
reading is at least the previous admission instant, and the admission it
records extends the history while keeping the deque a bounded suffix and
keeping every `maxR + 1` consecutive admissions more than one window
apart. -/
theorem acquire_step {maxR : ℕ} {W : ℚ} {clock now : ℚ} {rl : RateLimiter} {A : List ℚ}
    (hmax : 1 ≤ maxR) (hinv : RunInv maxR W clock rl A) (hnow : clock ≤ now) :
    RunInv maxR W (rl.acquire now).2 (rl.acquire now).1 (A ++ [(rl.acquire now).2]) := by
  obtain ⟨hmr, htw, hsort, ⟨k, hk, hreq, hexp⟩, hlen, hbound, hgap⟩ := hinv
  have hgap' : ∀ i : ℕ, i + maxR < A.length →
      ∀ (h1 : i < A.length) (h2 : i + maxR < A.length), A[i] + W ≤ A[i + maxR] := by
    intro i h h1 h2
    simpa [List.get_eq_getElem] using hgap i h
  rw [hreq, List.length_drop] at hlen
  simp only [RateLimiter.acquire, htw, hreq, hmr]
  set p1 : ℚ → Bool := fun a => decide (a ≤ now - W) with hp1
  set j := ((A.drop k).takeWhile p1).length with hj
  have hd1 : evictOld W (A.drop k) now = A.drop (k + j) := by
    rw [evictOld, ← hp1, dropWhile_eq_drop, List.drop_drop, Nat.add_comm]
  have hjle : j ≤ (A.drop k).length := (List.takeWhile_prefix p1).length_le
  have hkj : k + j ≤ A.length := by
    simp only [List.length_drop] at hjle; omega
  have hpref : ∀ a ∈ A.take (k + j), a + W ≤ now := by
    intro a ha
    rw [List.take_add] at ha
    rcases List.mem_append.mp ha with h | h
    · exact le_trans (hexp a h) hnow
    · have htake : (A.drop k).take j = (A.drop k).takeWhile p1 :=
        (List.prefix_iff_eq_take.mp (List.takeWhile_prefix p1)).symm
      rw [htake] at h
      have hp := List.mem_takeWhile_imp h
      rw [hp1] at hp
      simp only [decide_eq_true_eq] at hp
      linarith
  have hd1len : (evictOld W (A.drop k) now).length = A.length - (k + j) := by
    rw [hd1, List.length_drop]
  have hAle : ∀ a ∈ A, a ≤ now := fun a ha => le_trans (hbound a ha) hnow
  by_cases hbr : maxR ≤ (evictOld W (A.drop k) now).length
  · -- window full: sleep, re-evict, then record
    rw [if_pos hbr]
    have hfull : A.length - (k + j) = maxR := by omega
    have hkjlt : k + j < A.length := by omega
    have hdcons : A.drop (k + j) = A[k + j] :: A.drop (k + j + 1) :=
      List.drop_eq_getElem_cons hkjlt
    have hheadI : (evictOld W (A.drop k) now).headI = A[k + j] := by
      rw [hd1, hdcons, List.headI_cons]
    have hcons2 : evictOld W (A.drop k) now = A[k + j] :: A.drop (k + j + 1) := by
      rw [hd1]; exact hdcons
    have hheadgt : now - W < A[k + j] := by
      have hne : evictOld W (A.drop k) now ≠ [] := by
        rw [hcons2]; exact List.cons_ne_nil _ _
      have hnot := List.head_dropWhile_not p1 (A.drop k) hne
      simp only [evictOld, ← hp1] at hcons2
      simp only [hcons2, List.head_cons] at hnot
      rw [hp1] at hnot
      simp only [decide_eq_false_iff_not, not_le] at hnot
      exact hnot
    rw [hheadI]
    set T : ℚ := now + (W - (now - A[k + j]) + 1 / 10) with hT
    have hTval : T = A[k + j] + W + 1 / 10 := by rw [hT]; ring
    have hnowT : now < T := by rw [hT]; linarith
    set p2 : ℚ → Bool := fun a => decide (a ≤ T - W) with hp2
    set j2 := ((A.drop (k + j)).takeWhile p2).length with hj2
    have hd2 : evictOld W (evictOld W (A.drop k) now) T = A.drop (k + j + j2) := by
      rw [evictOld, hd1, ← hp2, dropWhile_eq_drop, List.drop_drop, Nat.add_comm]
    have hj2le : j2 ≤ (A.drop (k + j)).length := (List.takeWhile_prefix p2).length_le
    have hkj2 : k + j + j2 ≤ A.length := by
      simp only [List.length_drop] at hj2le; omega
    have hd2len : (evictOld W (evictOld W (A.drop k) now) T).length + 1 ≤ maxR := by
      have hp2head : p2 (A[k + j]) = true := by
        rw [hp2]
        simp only [decide_eq_true_eq]
        rw [hTval]; linarith
      have hstep2 : (A.drop (k + j)).dropWhile p2 = (A.drop (k + j + 1)).dropWhile p2 := by
        rw [hdcons, List.dropWhile_cons, hp2head]
        simp
      have hlen2 : ((A.drop (k + j)).dropWhile p2).length ≤ A.length - (k + j + 1) := by
        rw [hstep2]
        calc ((A.drop (k + j + 1)).dropWhile p2).length
            ≤ (A.drop (k + j + 1)).length := (List.dropWhile_suffix _).length_le
          _ = A.length - (k + j + 1) := List.length_drop _ _
      have hrw : evictOld W (evictOld W (A.drop k) now) T = (A.drop (k + j)).dropWhile p2 := by
        rw [evictOld, hd1, ← hp2]
      rw [hrw]
      omega
    refine ⟨rfl, rfl, ?_, ⟨k + j + j2, ?_, ?_, ?_⟩, ?_, ?_, ?_⟩
    · -- sorted
      rw [List.Sorted, List.pairwise_append]
      refine ⟨hsort, List.pairwise_singleton _ _, ?_⟩
      intro a ha b hb
      rw [List.mem_singleton] at hb
      subst hb
      exact le_of_lt (lt_of_le_of_lt (hAle a ha) hnowT)
    · simp only [List.length_append, List.length_cons, List.length_nil]
      omega
    · -- deque is suffix
      show evictOld W (evictOld W (A.drop k) now) T ++ [T] = (A ++ [T]).drop (k + j + j2)
      rw [hd2, List.drop_append_of_le_length hkj2]
    · -- evicted prefix expired against new clock T
      intro a ha
      rw [List.take_append_of_le_length hkj2, List.take_add] at ha
      rcases List.mem_append.mp ha with h | h
      · exact le_trans (hpref a h) (le_of_lt hnowT)
      · have htake : (A.drop (k + j)).take j2 = (A.drop (k + j)).takeWhile p2 :=
          (List.prefix_iff_eq_take.mp (List.takeWhile_prefix p2)).symm
        rw [htake] at h
        have hp := List.mem_takeWhile_imp h
        rw [hp2] at hp
        simp only [decide_eq_true_eq] at hp
        linarith
    · -- deque bounded
      show (evictOld W (evictOld W (A.drop k) now) T ++ [T]).length ≤ maxR
      rw [List.length_append]
      simpa using hd2len
    · -- all admissions at most the new clock
      intro a ha
      rcases List.mem_append.mp ha with h | h
      · exact le_of_lt (lt_of_le_of_lt (hAle a h) hnowT)
      · rw [List.mem_singleton] at h; subst h; exact le_refl _
    · -- the gap property extends to the new admission
      intro i h
      simp only [List.length_append, List.length_cons, List.length_nil] at h
      simp only [List.get_eq_getElem]
      by_cases hlt : i + maxR < A.length
      · rw [List.getElem_append_left (by omega), List.getElem_append_left hlt]
        exact hgap' i hlt (by omega) hlt
      · have hieq : i + maxR = A.length := by omega
        rw [List.getElem_concat_length A T (i + maxR) hieq]
        have hi : i = k + j := by omega
        rw [List.getElem_append_left (by omega)]
        have hsame : A[i] = A[k + j] := by congr 1
        rw [hsame, hTval]
        linarith
  · -- capacity available: record immediately
    rw [if_neg hbr]
    refine ⟨rfl, rfl, ?_, ⟨k + j, ?_, ?_, ?_⟩, ?_, ?_, ?_⟩
    · rw [List.Sorted, List.pairwise_append]
      refine ⟨hsort, List.pairwise_singleton _ _, ?_⟩
      intro a ha b hb
      rw [List.mem_singleton] at hb
      subst hb
      exact hAle a ha
    · simp only [List.length_append, List.length_cons, List.length_nil]
      omega
    · show evictOld W (A.drop k) now ++ [now] = (A ++ [now]).drop (k + j)
      rw [hd1, List.drop_append_of_le_length hkj]
    · intro a ha
      rw [List.take_append_of_le_length hkj] at ha
      exact hpref a ha
    · show (evictOld W (A.drop k) now ++ [now]).length ≤ maxR
      rw [List.length_append, hd1len]
      simp only [List.length_cons, List.length_nil]
      omega
    · intro a ha
      rcases List.mem_append.mp ha with h | h
      · exact hAle a h
      · rw [List.mem_singleton] at h; subst h; exact le_refl _
    · intro i h
      simp only [List.length_append, List.length_cons, List.length_nil] at h
      simp only [List.get_eq_getElem]
      by_cases hlt : i + maxR < A.length
      · rw [List.getElem_append_left (by omega), List.getElem_append_left hlt]
        exact hgap' i hlt (by omega) hlt
      · have hieq : i + maxR = A.length := by omega
        rw [List.getElem_concat_length A now (i + maxR) hieq]
        have hilt : i < k + j := by omega
        rw [List.getElem_append_left (by omega)]
        have hmem : A[i] ∈ A.take (k + j) := by
          have hkjA : i < (A.take (k + j)).length := by
            simp only [List.length_take]
            omega
          have hg := List.getElem_mem hkjA
          rwa [List.getElem_take] at hg
        exact hpref _ hmem

/-- The run invariant holds after any monotone sequence of `acquire`
calls. -/
theorem runAcquires_inv {maxR : ℕ} {W : ℚ} (hmax : 1 ≤ maxR) :
    ∀ (ts : List ℚ) (rl : RateLimiter) (clock : ℚ) (A : List ℚ),
      RunInv maxR W clock rl A → ValidCalls clock rl ts →
      ∃ clock', RunInv maxR W clock' (runAcquires rl ts).1 (A ++ (runAcquires rl ts).2) := by
  intro ts
  induction ts with
  | nil =>
    intro rl clock A hinv _
    exact ⟨clock, by simpa [runAcquires] using hinv⟩
  | cons t ts ih =>
    intro rl clock A hinv hvalid
    have hv : clock ≤ t ∧ ValidCalls (rl.acquire t).2 (rl.acquire t).1 ts := hvalid
    have hstep := acquire_step hmax hinv hv.1
    obtain ⟨c', hinv'⟩ := ih (rl.acquire t).1 (rl.acquire t).2 (A ++ [(rl.acquire t).2])
      hstep hv.2
    refine ⟨c', ?_⟩
    have hru : runAcquires rl (t :: ts) =
        ((runAcquires (rl.acquire t).1 ts).1,
          (rl.acquire t).2 :: (runAcquires (rl.acquire t).1 ts).2) := rfl
    rw [hru]
    simp only [List.append_assoc, List.singleton_append] at hinv'
    exact hinv'

/-- On a sorted list the admissions inside the window `(t - W, t]` form a
contiguous segment: the filter equals a `takeWhile` after a
`dropWhile`. -/
theorem filter_window_eq (t W : ℚ) :
    ∀ (A : List ℚ), List.Sorted (· ≤ ·) A →
      A.filter (fun a => decide (t - W < a) && decide (a ≤ t)) =
        (A.dropWhile (fun a => decide (a ≤ t - W))).takeWhile (fun a => decide (a ≤ t)) := by
  intro A
  induction A with
  | nil => intro _; rfl
  | cons x xs ih =>
    intro hs
    have hs' := hs.of_cons
    have hxall : ∀ y ∈ xs, x ≤ y := (List.sorted_cons.mp hs).1
    by_cases h1 : x ≤ t - W
    · have hflt : (decide (t - W < x) && decide (x ≤ t)) = false := by
        simp [not_lt.mpr h1]
      have hd : decide (x ≤ t - W) = true := by simp [h1]
      simp only [List.filter_cons, List.dropWhile_cons, hflt, hd, if_true]
      simp only [Bool.false_eq_true, if_false]
      exact ih hs'
    · have hd : decide (x ≤ t - W) = false := by simp [h1]
      have hdws : xs.dropWhile (fun a => decide (a ≤ t - W)) = xs := by
        cases xs with
        | nil => rfl
        | cons y ys =>
          rw [List.dropWhile_cons]
          have : decide (y ≤ t - W) = false := by
            have hxy : x ≤ y := hxall y (List.mem_cons_self y ys)
            simp only [decide_eq_false_iff_not, not_le]
            push_neg at h1
            linarith
          rw [this]
          simp
      by_cases h2 : x ≤ t
      · have hflt : (decide (t - W < x) && decide (x ≤ t)) = true := by
          push_neg at h1
          simp [h1, h2]
        simp only [List.filter_cons, List.dropWhile_cons, hflt, hd, if_true]
        simp only [Bool.false_eq_true, if_false, List.takeWhile_cons]
        have h2' : decide (x ≤ t) = true := by simp [h2]
        rw [h2']
        simp only [if_true]
        rw [ih hs', hdws]
      · have hflt : (decide (t - W < x) && decide (x ≤ t)) = false := by
          simp [h2]
        have h2' : decide (x ≤ t) = false := by simp [h2]
        simp only [List.filter_cons, List.dropWhile_cons, hflt, hd]
        simp only [Bool.false_eq_true, if_false, List.takeWhile_cons, h2']
        rw [List.filter_eq_nil_iff.mpr]
        intro a ha
        have hxa : x ≤ a := hxall a ha
        simp only [Bool.and_eq_true, decide_eq_true_eq, not_and, not_le]
        intro _
        push_neg at h2
        linarith

/-- A sorted admission history in which any `maxR + 1` consecutive
admissions span more than one window has at most `maxR` admissions in
any window `(t - W, t]`. -/
theorem window_count_le (A : List ℚ) (maxR : ℕ) (W t : ℚ)
    (hs : List.Sorted (· ≤ ·) A)
    (hgap : ∀ i : ℕ, (h : i + maxR < A.length) →
      A.get ⟨i, Nat.lt_of_le_of_lt (Nat.le_add_right i maxR) h⟩ + W ≤ A.get ⟨i + maxR, h⟩) :
    (A.filter (fun a => decide (t - W < a) && decide (a ≤ t))).length ≤ maxR := by
  have hgap' : ∀ i : ℕ, i + maxR < A.length →
      ∀ (h1 : i < A.length) (h2 : i + maxR < A.length), A[i] + W ≤ A[i + maxR] := by
    intro i h h1 h2
    simpa [List.get_eq_getElem] using hgap i h
  rw [filter_window_eq t W A hs]
  by_contra hlen
  push_neg at hlen
  set q1 : ℚ → Bool := fun a => decide (a ≤ t - W) with hq1
  set q2 : ℚ → Bool := fun a => decide (a ≤ t) with hq2
  set B := A.dropWhile q1 with hB
  set k0 := (A.takeWhile q1).length with hk0
  have hBdrop : B = A.drop k0 := by rw [hB, dropWhile_eq_drop]
  have hCpre : B.takeWhile q2 <+: B := List.takeWhile_prefix q2
  have hClen : (B.takeWhile q2).length ≤ B.length := hCpre.length_le
  have hmaxB : maxR < B.length := lt_of_lt_of_le hlen hClen
  have hk0le : k0 ≤ A.length := by
    have h : (A.takeWhile q1).length ≤ A.length := (List.takeWhile_prefix q1).length_le
    rw [← hk0] at h
    exact h
  have hlenB : B.length = A.length - k0 := by rw [hBdrop, List.length_drop]
  have hk0max : k0 + maxR < A.length := by omega
  have hk0lt : k0 < A.length := by omega
  have hdcons : A.drop k0 = A[k0] :: A.drop (k0 + 1) := List.drop_eq_getElem_cons hk0lt
  have hxgt : t - W < A[k0] := by
    have hne : A.dropWhile q1 ≠ [] := by
      rw [← hB, hBdrop, hdcons]; exact List.cons_ne_nil _ _
    have hnot := List.head_dropWhile_not q1 A hne
    have hBcons : A.dropWhile q1 = A[k0] :: A.drop (k0 + 1) := by
      rw [← hB, hBdrop]; exact hdcons
    simp only [hBcons, List.head_cons] at hnot
    rw [hq1] at hnot
    simp only [decide_eq_false_iff_not, not_le] at hnot
    exact hnot
  have hmB : maxR < (B.takeWhile q2).length := hlen
  have hyeq : (B.takeWhile q2)[maxR] = B[maxR] := hCpre.getElem hmB
  have hymem : (B.takeWhile q2)[maxR] ∈ B.takeWhile q2 := List.getElem_mem hmB
  have hyle : (B.takeWhile q2)[maxR] ≤ t := by
    have hp := List.mem_takeWhile_imp hymem
    simp only [hq2, decide_eq_true_eq] at hp
    exact hp
  have hyA : B[maxR] = A[k0 + maxR] := by
    have hm : maxR < (A.drop k0).length := by
      rw [List.length_drop]; omega
    rw [List.getElem_of_eq hBdrop, List.getElem_drop]
  have hgk := hgap' k0 hk0max (by omega) hk0max
  rw [hyeq, hyA] at hyle
  linarith

/-- C6: for every monotone sequence of `acquire` calls on a fresh
limiter (each call's check-and-record serialized under the lock,
modelled as sequential execution), no sliding window of duration
`time_window` ending at any point contains more than `max_requests`
recorded admissions; and when the limit is reached, `acquire` performs
one sleep lasting until the oldest entry has expired (plus 0.1 s), then
re-runs the eviction loop at the post-sleep time — re-checking the whole
deque, since more entries may have expired — before recording its
admission. -/
theorem rateLimiter_window_bound :
    (∀ (maxR : ℕ) (W : ℚ) (c0 : ℚ) (ts : List ℚ),
      1 ≤ maxR → 0 < W → ValidCalls c0 (mkRateLimiter maxR W) ts →
      ∀ t : ℚ,
        ((runAcquires (mkRateLimiter maxR W) ts).2.filter
          (fun a => decide (t - W < a) && decide (a ≤ t))).length ≤ maxR) ∧
    (∀ (rl : RateLimiter) (now : ℚ),
      rl.maxRequests ≤ (evictOld rl.timeWindow rl.requests now).length →
      (rl.acquire now).2 =
        now + (rl.timeWindow - (now - (evictOld rl.timeWindow rl.requests now).headI) + 1 / 10) ∧
      (rl.acquire now).1.requests =
        evictOld rl.timeWindow (evictOld rl.timeWindow rl.requests now) (rl.acquire now).2 ++
          [(rl.acquire now).2] ∧
      (rl.acquire now).1.maxRequests = rl.maxRequests ∧
      (rl.acquire now).1.timeWindow = rl.timeWindow) := by
  constructor
  · intro maxR W c0 ts hmax _hW hvalid t
    have h0 : RunInv maxR W c0 (mkRateLimiter maxR W) [] := by
      refine ⟨rfl, rfl, List.sorted_nil, ⟨0, ?_, rfl, ?_⟩, ?_, ?_, ?_⟩
      · simp
      · intro a ha; simp at ha
      · simp [mkRateLimiter]
      · intro a ha; simp at ha
      · intro i h; simp at h
    obtain ⟨c', hinv⟩ := runAcquires_inv hmax ts (mkRateLimiter maxR W) c0 [] h0 hvalid
    simp only [List.nil_append] at hinv
    obtain ⟨-, -, hsort, -, -, -, hgap⟩ := hinv
    exact window_count_le _ maxR W t hsort hgap
  · intro rl now h
    simp only [RateLimiter.acquire]
    rw [if_pos h]
    exact ⟨rfl, rfl, rfl, rfl⟩

/-- C6 witness: a 1-per-second limiter called twice at time 0 (a valid
monotone call sequence) admits at most one request in the window ending
at time 1; and with its window full (`rlFull`), the call at time 0
sleeps until the oldest entry (time 0) has expired plus 0.1 s, recording
its admission at time 1.1 after the re-eviction pass. -/
theorem rateLimiter_window_bound_witness :
    ((1 : ℕ) ≤ 1 ∧ (0 : ℚ) < 1 ∧ ValidCalls 0 (mkRateLimiter 1 1) [0, 0]) ∧
    ((runAcquires (mkRateLimiter 1 1) [0, 0]).2.filter
      (fun a => decide ((1 : ℚ) - 1 < a) && decide (a ≤ 1))).length ≤ 1 ∧
    rlFull.maxRequests ≤ (evictOld rlFull.timeWindow rlFull.requests 0).length ∧
    (rlFull.acquire 0).2 =
      0 + (rlFull.timeWindow - (0 - (evictOld rlFull.timeWindow rlFull.requests 0).headI)
        + 1 / 10) := by
  have hacq1 : (mkRateLimiter 1 1).acquire 0 =
      ({ maxRequests := 1, timeWindow := 1, requests := [0] }, 0) := by
    simp [RateLimiter.acquire, mkRateLimiter, evictOld]
  have hvalid : ValidCalls 0 (mkRateLimiter 1 1) [0, 0] := by
    refine ⟨le_refl 0, ?_⟩
    rw [hacq1]
    exact ⟨le_refl 0, trivial⟩
  have hevict : rlFull.maxRequests ≤ (evictOld rlFull.timeWindow rlFull.requests 0).length := by
    simp only [rlFull, evictOld, List.dropWhile_cons]
    norm_num
  refine ⟨⟨by decide, by norm_num, hvalid⟩, ?_, hevict, ?_⟩
  · exact rateLimiter_window_bound.1 1 1 0 [0, 0] (by decide) (by norm_num) hvalid 1
  · exact (rateLimiter_window_bound.2 rlFull 0 hevict).1

end QsrPipeline
